import Mathlib

/-!
# Verification of the `distructions` command-menu program

Shallow embedding of the two Go source files of the repository
(`src/main.go` and `src/unnamed/part_000`, two variants of the same
program) and proofs about:

* the data model (`Command`, `Config`, `Model`),
* the three detectors (`detectNodeCommands`, `detectDockerCommands`,
  `detectGoCommands`),
* catalog persistence (`saveConfig` / `loadConfig` over an explicit
  file-system state, with JSON serialization modelled at the
  document-tree level, as the spec puts the on-disk byte layout out
  of scope),
* the Bubble Tea selection state machine (`Model.update`) and the
  event loop / exit-code behaviour of `main`.

Go `int` is modelled as `Int`; Go maps (`scripts`, `services`) are
modelled as association lists enumerating the map in some order
(iteration order of a Go map is unspecified), with key distinctness
as a hypothesis where a claim speaks of the entries of a mapping.
-/

/-- Go struct `Command` (src/main.go lines 17-21): a project command
with a display name, the shell command string, and a description. -/
structure Command where
  name : String
  command : String
  description : String
deriving Repr, DecidableEq

/-- Go struct `Config` (src/main.go lines 24-27): project name plus
the ordered list of commands (the Catalog of the spec). -/
structure Config where
  projectName : String
  commands : List Command
deriving Repr, DecidableEq

/-- Go struct `PackageJSON` (src/main.go lines 58-60): the parsed form
of a package manifest, keeping only the `scripts` map.  The map is
modelled as an association list (script name, script text). -/
structure PackageJSON where
  scripts : List (String × String)
deriving Repr, DecidableEq

/-- A JSON document tree.  `encoding/json` marshalling and
unmarshalling of `Config` are modelled at this level: the exact byte
layout (indentation, key order in output, string escaping) is out of
scope per the spec, but field lookup, type checking and defaulting of
absent fields follow `json.Unmarshal`. -/
inductive Json where
  | null : Json
  | bool (b : Bool) : Json
  | num (n : Int) : Json
  | str (s : String) : Json
  | arr (elems : List Json) : Json
  | obj (fields : List (String × Json)) : Json
deriving Repr

/-- A YAML document tree, as far as `detectDockerCommands` observes it:
the code only asks whether the top level is a mapping and whether its
`services` key holds a mapping, whose keys are the service names.
Scalar and sequence nodes are collapsed into `other`. -/
inductive YamlVal where
  | str (s : String) : YamlVal
  | map (fields : List (String × YamlVal)) : YamlVal
  | other : YamlVal
deriving Repr

/-- Go struct `Model` (src/main.go lines 30-36): the application state
of the selection controller.  `cursor` is a Go `int`, modelled as
`Int`.  `err` holds the error from `loadConfig`, if any, as its
message.  The `selected` map of the source is omitted: it is
initialized empty and never read or written afterwards. -/
structure Model where
  config : Config
  cursor : Int
  quitting : Bool
  err : Option String
deriving Repr, DecidableEq

/-- A Bubble Tea message, as far as `Model.Update` inspects it: either
a key message carrying `msg.String()`, or any other message (window
size, exec-finished, ...), which `Update` ignores. -/
inductive Msg where
  | key (s : String) : Msg
  | other : Msg
deriving Repr, DecidableEq

/-- A Bubble Tea command returned by `Model.Update`: `tea.Quit`, or
`tea.ExecProcess(exec.Command(prog, flag, arg), nil)` which suspends
rendering and runs the process with inherited stdio. -/
inductive TeaCmd where
  | quit : TeaCmd
  | execProcess (prog : String) (flag : String) (arg : String) : TeaCmd
deriving Repr, DecidableEq

/-- Go method `Model.Update` (src/main.go lines 241-265, identical in
src/unnamed/part_000 lines 292-316).  Key strings are dispatched as in
the source switch; all other messages leave the model unchanged and
return no command.  In the `enter` branch the source indexes
`m.config.Commands[m.cursor]` after the guard `m.cursor < len(...)`;
the `none` arm of the `List.get?` match corresponds to the Go runtime
panic on a negative index, which is unreachable from the initial
state since `cursor` starts at 0 and no transition makes it
negative. -/
def Model.update (m : Model) (msg : Msg) : Model × Option TeaCmd :=
  match msg with
  | Msg.other => (m, none)
  | Msg.key s =>
    if s = "ctrl+c" ∨ s = "q" then
      ({ m with quitting := true }, some TeaCmd.quit)
    else if s = "up" ∨ s = "k" then
      (if m.cursor > 0 then { m with cursor := m.cursor - 1 } else m, none)
    else if s = "down" ∨ s = "j" then
      (if m.cursor < (m.config.commands.length : Int) - 1 then
        { m with cursor := m.cursor + 1 }
      else m, none)
    else if s = "enter" then
      if m.cursor < (m.config.commands.length : Int) then
        match m.config.commands.get? m.cursor.toNat with
        | some c => (m, some (TeaCmd.execProcess "sh" "-c" c.command))
        | none => (m, none)
      else (m, none)
    else (m, none)

/-- Look up a key among the fields of a JSON object, first match wins
(models `json.Unmarshal` field matching for the exact-case keys this
program writes). -/
def getField (fields : List (String × Json)) (k : String) : Option Json :=
  (fields.find? (fun p => p.1 == k)).map Prod.snd

/-- Decode a string-typed struct field as `json.Unmarshal` does: an
absent field or a JSON `null` leaves the Go zero value `""`; a JSON
string sets the field; any other type is an unmarshal error. -/
def decodeStringField (fields : List (String × Json)) (k : String) :
    Except String String :=
  match getField fields k with
  | none => Except.ok ""
  | some Json.null => Except.ok ""
  | some (Json.str s) => Except.ok s
  | some _ => Except.error ("cannot unmarshal value into field " ++ k ++ " of type string")

/-- Marshal one `Command` to a JSON object, keys as in the struct tags
of src/main.go lines 17-21. -/
def commandToJson (c : Command) : Json :=
  Json.obj [("name", Json.str c.name), ("command", Json.str c.command),
    ("description", Json.str c.description)]

/-- Unmarshal one element of the `commands` array into a `Command`. -/
def commandFromJson (j : Json) : Except String Command :=
  match j with
  | Json.obj fields => do
    let n ← decodeStringField fields "name"
    let c ← decodeStringField fields "command"
    let d ← decodeStringField fields "description"
    Except.ok { name := n, command := c, description := d }
  | _ => Except.error "cannot unmarshal value into Go value of type main.Command"

/-- Unmarshal the elements of the `commands` array in order; the first
failing element aborts with its error, as `json.Unmarshal` reports an
error for the whole document. -/
def decodeCommandList (js : List Json) : Except String (List Command) :=
  match js with
  | [] => Except.ok []
  | j :: rest => do
    let c ← commandFromJson j
    let cs ← decodeCommandList rest
    Except.ok (c :: cs)

/-- Marshal a `Config` to a JSON document, as `json.MarshalIndent`
does at the document-tree level (src/main.go line 203). -/
def configToJson (cfg : Config) : Json :=
  Json.obj [("projectName", Json.str cfg.projectName),
    ("commands", Json.arr (cfg.commands.map commandToJson))]

/-- Unmarshal a JSON document into a `Config` (src/main.go line 233):
the top level must be an object; `projectName` decodes as a string
field; `commands` is absent/null (Go zero value: nil slice, modelled
as `[]`) or an array of command objects. -/
def configFromJson (j : Json) : Except String Config :=
  match j with
  | Json.obj fields => do
    let pn ← decodeStringField fields "projectName"
    let cmds ←
      match getField fields "commands" with
      | none => Except.ok []
      | some Json.null => Except.ok []
      | some (Json.arr js) => decodeCommandList js
      | some _ => Except.error "cannot unmarshal value into field commands of type []main.Command"
    Except.ok { projectName := pn, commands := cmds }
  | _ => Except.error "cannot unmarshal value into Go value of type main.Config"

/-- The file-system state the program observes, one field per probed
path.  For each file an outer `none` means the path does not exist
(`os.Stat`/`os.ReadFile` fail); `some none` means the file exists but
its content does not parse; `some (some v)` means it exists and parses
to `v`.  `goMod` is existence-only (the code never reads `go.mod`). -/
structure FS where
  projectCommands : Option (Option Json)
  packageJson : Option (Option PackageJSON)
  composeYml : Option (Option YamlVal)
  composeYaml : Option (Option YamlVal)
  goMod : Bool

/-- Go method `ConfigGenerator.detectNodeCommands` (src/main.go lines
98-116): read and unmarshal `package.json`; on any failure contribute
nothing; otherwise append one `Command` per script. -/
def detectNodeCommands (fs : FS) (config : Config) : Config :=
  match fs.packageJson with
  | some (some pkg) =>
    { config with
      commands := config.commands ++ pkg.scripts.map (fun s =>
        { name := "npm: " ++ s.1
          command := "npm run " ++ s.1
          description := "Run npm script: " ++ s.2 }) }
  | _ => config

/-- The compose-file candidate found by the loop of src/main.go lines
119-127: `docker-compose.yml` if it exists, else `docker-compose.yaml`
if it exists, else none. -/
def composeCandidate (fs : FS) : Option (Option YamlVal) :=
  match fs.composeYml with
  | some d => some d
  | none => fs.composeYaml

/-- Extract the service names as src/main.go lines 144-147 does: the
document must be a mapping whose `services` key holds a mapping; the
service names are that mapping's keys. -/
def composeServices (doc : YamlVal) : Option (List String) :=
  match doc with
  | YamlVal.map fields =>
    match (fields.find? (fun p => p.1 == "services")).map Prod.snd with
    | some (YamlVal.map svcs) => some (svcs.map Prod.fst)
    | _ => none
  | _ => none

/-- The three fixed docker-compose entries of src/main.go lines 150-166. -/
def dockerGenericCommands : List Command :=
  [{ name := "Docker: Start All", command := "docker-compose up",
     description := "Start all Docker containers" },
   { name := "Docker: Start All (Detached)", command := "docker-compose up -d",
     description := "Start all Docker containers in detached mode" },
   { name := "Docker: Stop All", command := "docker-compose down",
     description := "Stop all Docker containers" }]

/-- Go method `ConfigGenerator.detectDockerCommands` (src/main.go
lines 118-178): find the first compose-file candidate; on missing
file, read/parse failure, or a missing/non-mapping `services` key
contribute nothing; otherwise append the three generic entries then
one start entry per service. -/
def detectDockerCommands (fs : FS) (config : Config) : Config :=
  match composeCandidate fs with
  | none => config
  | some none => config
  | some (some doc) =>
    match composeServices doc with
    | none => config
    | some names =>
      { config with
        commands := config.commands ++ dockerGenericCommands ++
          names.map (fun serviceName =>
            { name := "Docker: Start " ++ serviceName
              command := "docker-compose up " ++ serviceName
              description := "Start the " ++ serviceName ++ " service" }) }

/-- The three fixed Go entries of src/main.go lines 182-198. -/
def goCommands : List Command :=
  [{ name := "Go: Run", command := "go run .",
     description := "Run the Go application" },
   { name := "Go: Test", command := "go test ./...",
     description := "Run all tests" },
   { name := "Go: Build", command := "go build",
     description := "Build the Go application" }]

/-- Go method `ConfigGenerator.detectGoCommands` (src/main.go lines
180-200): if `go.mod` exists, append the three fixed entries. -/
def detectGoCommands (fs : FS) (config : Config) : Config :=
  if fs.goMod then { config with commands := config.commands ++ goCommands }
  else config

/-- Go method `ConfigGenerator.saveConfig` (src/main.go lines
202-208): marshal the config and overwrite `.project-commands.json`.
Marshalling of this schema cannot fail and the write is modelled as
succeeding, so the Go error return is always nil here. -/
def saveConfig (config : Config) (fs : FS) : FS :=
  { fs with projectCommands := some (some (configToJson config)) }

/-- Go method `ConfigGenerator.Generate` (src/main.go lines 73-96):
if `.project-commands.json` already exists do nothing; otherwise run
the three detectors in order, starting from an empty command list and
the project label, and persist the result only if at least one
command was found.  `repoName` stands for the result of
`getRepoName()`, which shells out to git / reads the cwd and is taken
as a parameter. -/
def generate (repoName : String) (fs : FS) : FS :=
  if fs.projectCommands.isSome then fs
  else
    let config : Config := { projectName := repoName, commands := [] }
    let config := detectNodeCommands fs config
    let config := detectDockerCommands fs config
    let config := detectGoCommands fs config
    if config.commands.length > 0 then saveConfig config fs else fs

/-- The empty `Config` Go zero value returned on the error paths of
`loadConfig`. -/
def emptyConfig : Config := { projectName := "", commands := [] }

/-- Read and unmarshal `.project-commands.json` (the shared tail of
both `loadConfig` variants): a missing file is a read error, an
unparsable one an unmarshal error; otherwise the decoded config is
returned.  On an unmarshal error Go returns the partially filled
struct together with the error; the partial fill is modelled as the
zero value, which no caller distinguishes (the model only renders the
error). -/
def readPersistedConfig (fs : FS) : Config × Option String :=
  match fs.projectCommands with
  | none => (emptyConfig, some "open .project-commands.json: no such file or directory")
  | some none => (emptyConfig, some "invalid character in .project-commands.json")
  | some (some j) =>
    match configFromJson j with
    | Except.ok c => (c, none)
    | Except.error e => (emptyConfig, some e)

/-- Go function `loadConfig` of src/main.go lines 219-235: run
`Generate` (whose error return is always nil in this model, see
`saveConfig`), then read and unmarshal the persisted file.  Returns
the possibly-updated file system, the config and the error. -/
def loadConfig (repoName : String) (fs : FS) : FS × Config × Option String :=
  let fs1 := generate repoName fs
  (fs1, readPersistedConfig fs1)

/-- Go function `loadConfig` of src/unnamed/part_000 lines 258-286:
first require a `.git` directory; if the persisted file is missing,
prompt the user and either generate or abort; finally read and
unmarshal the persisted file.  `hasGit` models the `os.Stat(".git")`
probe and `userAccepts` the interactive `promptUser` answer. -/
def loadConfigPrompt (repoName : String) (hasGit : Bool) (userAccepts : Bool)
    (fs : FS) : FS × Config × Option String :=
  if ¬hasGit then (fs, emptyConfig, some "not a git repository")
  else if fs.projectCommands.isNone then
    if userAccepts then
      let fs1 := generate repoName fs
      (fs1, readPersistedConfig fs1)
    else (fs, emptyConfig, some "config generation cancelled by user")
  else (fs, readPersistedConfig fs)

/-- Go function `initialModel` (src/main.go lines 210-217): load the
config and build the initial model with `cursor = 0` (Go zero value),
`quitting = false`, and the load error stored in the model.  The
updated file system is returned alongside so that persistence effects
remain observable. -/
def initialModel (repoName : String) (fs : FS) : FS × Model :=
  match loadConfig repoName fs with
  | (fs1, config, err) =>
    (fs1, { config := config, cursor := 0, quitting := false, err := err })

/-- The Bubble Tea event loop of `tea.Program.Run`, as far as this
program exercises it: deliver messages to `Model.Update` one at a
time; a `tea.Quit` command ends the loop; an `ExecProcess` command
runs the child to completion (its outcome is not inspected: the
callback passed to `tea.ExecProcess` is nil) and the loop continues.
The returned `Option String` is `Run`'s error value, which reports
failures of the loop or terminal driver only — the model's `err`
field is never inspected or returned by `Run` — and is therefore
`none` in this model, where the driver does not fail. -/
def runProgram (m : Model) (msgs : List Msg) : Model × Option String :=
  match msgs with
  | [] => (m, none)
  | msg :: rest =>
    match m.update msg with
    | (m1, some TeaCmd.quit) => (m1, none)
    | (m1, _) => runProgram m1 rest

/-- Go function `main` of src/main.go lines 315-321, as the process
exit code: build the initial model, run the program on the incoming
messages, and exit 1 printing the error if `Run` returned one, else
exit 0. -/
def mainExitCode (repoName : String) (fs : FS) (msgs : List Msg) : Nat :=
  match initialModel repoName fs with
  | (_, m0) =>
    match runProgram m0 msgs with
    | (_, some _) => 1
    | (_, none) => 0

/-- Go function `main` of src/unnamed/part_000 lines 392-406, as the
process exit code: like `mainExitCode`, but an error from `Run` whose
message is `"config generation cancelled by user"` or
`"not a git repository"` prints an informational message and exits 0;
any other error exits 1. -/
def mainExitCodePrompt (repoName : String) (hasGit : Bool) (userAccepts : Bool)
    (fs : FS) (msgs : List Msg) : Nat :=
  match loadConfigPrompt repoName hasGit userAccepts fs with
  | (_, config, err) =>
    let m0 : Model := { config := config, cursor := 0, quitting := false, err := err }
    match runProgram m0 msgs with
    | (_, some e) =>
      if e = "config generation cancelled by user" then 0
      else if e = "not a git repository" then 0
      else 1
    | (_, none) => 0

/-- A working directory with no persisted catalog and no marker files:
every detector probe fails. -/
def fsEmpty : FS :=
  { projectCommands := none, packageJson := none, composeYml := none,
    composeYaml := none, goMod := false }

/-- A working directory containing only `go.mod`. -/
def fsGoOnly : FS :=
  { projectCommands := none, packageJson := none, composeYml := none,
    composeYaml := none, goMod := true }

/-- The persisted document of the spec scenario for the store: project
label `proj`, single entry `{"A", "echo a", "d1"}`. -/
def jsonScenario : Json :=
  Json.obj [("projectName", Json.str "proj"),
    ("commands", Json.arr [Json.obj [("name", Json.str "A"),
      ("command", Json.str "echo a"), ("description", Json.str "d1")]])]

/-- A directory where the persisted catalog already exists and marker
files that would otherwise contribute entries are also present (a
parseable package manifest and `go.mod`). -/
def fsPersistedScenario : FS :=
  { projectCommands := some (some jsonScenario)
    packageJson := some (some { scripts := [("build", "tsc -b")] })
    composeYml := none, composeYaml := none, goMod := true }

/-- A directory containing only a compose file with services a, b, c. -/
def fsComposeABC : FS :=
  { projectCommands := none, packageJson := none
    composeYml := some (some (YamlVal.map
      [("services", YamlVal.map [("a", YamlVal.other), ("b", YamlVal.other),
        ("c", YamlVal.other)])]))
    composeYaml := none, goMod := false }

/-- A directory containing only a package manifest with two scripts
that share the same script text. -/
def fsPackageTwoScripts : FS :=
  { projectCommands := none
    packageJson := some (some { scripts := [("build", "tsc -b"), ("check", "tsc -b")] })
    composeYml := none, composeYaml := none, goMod := false }

/-- A browsing model over a two-entry catalog with the cursor at 0. -/
def modelTwoEntries : Model :=
  { config :=
      { projectName := "p",
        commands := [{ name := "A", command := "echo a", description := "da" },
          { name := "B", command := "echo b", description := "db" }] },
    cursor := 0, quitting := false, err := none }

/-- A browsing model over a one-entry catalog with the cursor at 0. -/
def modelOneEntry : Model :=
  { config :=
      { projectName := "p",
        commands := [{ name := "A", command := "echo a", description := "da" }] },
    cursor := 0, quitting := false, err := none }

/-- A browsing model over an empty catalog with the cursor at 0. -/
def modelEmptyCatalog : Model :=
  { config := { projectName := "p", commands := [] },
    cursor := 0, quitting := false, err := none }

/-- Unmarshalling undoes marshalling for a single command. -/
theorem commandFromJson_commandToJson (c : Command) :
    commandFromJson (commandToJson c) = Except.ok c := by
  simp only [commandFromJson, commandToJson, decodeStringField, getField,
    List.find?]
  rfl

/-- Unmarshalling undoes marshalling for a list of commands. -/
theorem decodeCommandList_map (l : List Command) :
    decodeCommandList (l.map commandToJson) = Except.ok l := by
  induction l with
  | nil => rfl
  | cons c rest ih =>
    simp only [List.map_cons, decodeCommandList, commandFromJson_commandToJson, ih]
    rfl

/-- Unmarshalling undoes marshalling for a whole config. -/
theorem configFromJson_configToJson (cfg : Config) :
    configFromJson (configToJson cfg) = Except.ok cfg := by
  obtain ⟨pn, cmds⟩ := cfg
  have h : configFromJson (configToJson { projectName := pn, commands := cmds }) =
      (decodeCommandList (cmds.map commandToJson)).bind
        (fun y => Except.ok { projectName := pn, commands := y }) := rfl
  rw [h, decodeCommandList_map]
  rfl

/-- C8: for every Catalog, persisting it (serialize and write) and then
reloading it (read and parse) yields a Catalog with an identical
project label and an identical ordered entry list, with no error and
no further change to the file system. -/
theorem saveConfig_loadConfig_roundTrip (repoName : String) (cfg : Config) (fs : FS) :
    loadConfig repoName (saveConfig cfg fs) = (saveConfig cfg fs, cfg, none) := by
  simp only [loadConfig, generate, saveConfig, Option.isSome_some, if_true]
  simp only [readPersistedConfig, configFromJson_configToJson]

/-- C4: if a persisted catalog file already exists, `loadConfig`
returns exactly the result of parsing it: the file system is
unchanged and the outcome depends only on the persisted document,
whatever marker files (manifest, compose file, module marker) the
directory also contains — the detectors are not invoked. -/
theorem loadConfig_persisted_skips_detectors (repoName : String) (fs : FS) (j : Json)
    (h : fs.projectCommands = some (some j)) :
    loadConfig repoName fs =
      (fs, match configFromJson j with
        | Except.ok c => (c, none)
        | Except.error e => (emptyConfig, some e)) := by
  simp only [loadConfig, generate, h, Option.isSome_some, if_true,
    readPersistedConfig]

/-- Witness for C4: the spec scenario — the persisted file holds the
single entry `{"A", "echo a", "d1"}` while the directory also has a
parseable package manifest and `go.mod`; loading returns exactly that
catalog with no error and writes nothing. -/
theorem loadConfig_persisted_skips_detectors_witness :
    loadConfig "proj" fsPersistedScenario =
      (fsPersistedScenario,
        { projectName := "proj",
          commands := [{ name := "A", command := "echo a", description := "d1" }] },
        none) := by
  have h := loadConfig_persisted_skips_detectors "proj" fsPersistedScenario jsonScenario rfl
  rw [h]
  rfl

/-- Counterexample for C2: in a directory where no detector matches
(no persisted catalog, no manifest, no compose file, no module
marker), `loadConfig` DOES report an error — the read of the
never-written persisted file fails — while returning the zero-entry
catalog and leaving no persisted file behind. -/
theorem loadConfig_empty_dir_reports_error :
    (loadConfig "proj" fsEmpty).2.2 =
      some "open .project-commands.json: no such file or directory"
    ∧ (loadConfig "proj" fsEmpty).1.projectCommands = none
    ∧ (loadConfig "proj" fsEmpty).2.1 = emptyConfig :=
  ⟨rfl, rfl, rfl⟩

/-- C2 as amended: if the persisted catalog file does not exist and
the detectors accumulate zero entries, `loadConfig` leaves the file
system unchanged (no persisted file is written) and returns the
zero-entry catalog together with a file-read error for the missing
persisted file, rather than no error. -/
theorem loadConfig_no_detection_amended (repoName : String) (fs : FS)
    (hp : fs.projectCommands = none)
    (hdet : (detectGoCommands fs (detectDockerCommands fs (detectNodeCommands fs
      { projectName := repoName, commands := [] }))).commands = []) :
    loadConfig repoName fs =
      (fs, emptyConfig,
        some "open .project-commands.json: no such file or directory") := by
  simp only [loadConfig, generate, hp, Option.isSome_none, Bool.false_eq_true,
    if_false, hdet, List.length_nil, gt_iff_lt, lt_self_iff_false,
    readPersistedConfig, emptyConfig]

/-- Witness for the amended C2 at the empty directory. -/
theorem loadConfig_no_detection_amended_witness :
    loadConfig "proj" fsEmpty =
      (fsEmpty, emptyConfig,
        some "open .project-commands.json: no such file or directory") :=
  loadConfig_no_detection_amended "proj" fsEmpty rfl rfl

/-- C7: if `go.mod` exists, the persisted file does not, and neither
the manifest nor the compose detector contributes anything, the
generated catalog holds exactly the three Go entries (`Go: Run` with
`go run .`, `Go: Test` with `go test ./...`, `Go: Build` with
`go build`), which is persisted and returned without error. -/
theorem loadConfig_go_mod_only (repoName : String) (fs : FS)
    (hp : fs.projectCommands = none)
    (hnode : ∀ c : Config, detectNodeCommands fs c = c)
    (hdocker : ∀ c : Config, detectDockerCommands fs c = c)
    (hgo : fs.goMod = true) :
    loadConfig repoName fs =
      (saveConfig { projectName := repoName, commands := goCommands } fs,
        { projectName := repoName, commands := goCommands }, none) := by
  have hgen : generate repoName fs =
      saveConfig { projectName := repoName, commands := goCommands } fs := by
    simp only [generate, hp, Option.isSome_none, Bool.false_eq_true, if_false,
      hnode, hdocker, detectGoCommands, hgo, if_true, List.nil_append]
    rfl
  simp only [loadConfig, hgen, saveConfig, readPersistedConfig,
    configFromJson_configToJson]

/-- Witness for C7: the directory that contains `go.mod` only. -/
theorem loadConfig_go_mod_only_witness :
    loadConfig "proj" fsGoOnly =
      (saveConfig { projectName := "proj", commands := goCommands } fsGoOnly,
        { projectName := "proj", commands := goCommands }, none) :=
  loadConfig_go_mod_only "proj" fsGoOnly rfl (fun _ => rfl) (fun _ => rfl) rfl

/-- C5: for a parseable package manifest whose scripts mapping has N
entries (N distinct script names), the manifest scanner appends
exactly N command entries, one per script name — none dropped even
when two scripts share the same script text — each named
`npm: <scriptName>` with command `npm run <scriptName>` and
description `Run npm script: <scriptText>`. -/
theorem detectNodeCommands_emits_all_scripts (fs : FS) (cfg : Config)
    (pkg : PackageJSON)
    (hfile : fs.packageJson = some (some pkg))
    (_hkeys : (pkg.scripts.map Prod.fst).Nodup) :
    (detectNodeCommands fs cfg).commands =
      cfg.commands ++ pkg.scripts.map (fun s =>
        { name := "npm: " ++ s.1, command := "npm run " ++ s.1,
          description := "Run npm script: " ++ s.2 })
    ∧ (detectNodeCommands fs cfg).commands.length =
        cfg.commands.length + pkg.scripts.length := by
  constructor
  · simp [detectNodeCommands, hfile]
  · simp [detectNodeCommands, hfile]

/-- Witness for C5: a manifest with the two scripts `build` and
`check` sharing the script text `tsc -b` yields exactly two entries. -/
theorem detectNodeCommands_emits_all_scripts_witness :
    (detectNodeCommands fsPackageTwoScripts emptyConfig).commands =
      [{ name := "npm: build", command := "npm run build",
         description := "Run npm script: tsc -b" },
       { name := "npm: check", command := "npm run check",
         description := "Run npm script: tsc -b" }]
    ∧ (detectNodeCommands fsPackageTwoScripts emptyConfig).commands.length = 2 := by
  have h := detectNodeCommands_emits_all_scripts fsPackageTwoScripts emptyConfig
    { scripts := [("build", "tsc -b"), ("check", "tsc -b")] } rfl (by decide)
  exact ⟨by rw [h.1]; rfl, by rw [h.2]; rfl⟩

/-- C6: for every file-system state and starting config, (a) when a
compose-file candidate exists, parses, and carries a `services`
mapping with N service names, the compose scanner appends exactly
3 + N entries — the three fixed generic entries followed by one start
entry per service; (b) when no compose-file candidate exists it
appends nothing. -/
theorem detectDockerCommands_entry_count (fs : FS) (cfg : Config) :
    (∀ (doc : YamlVal) (svcs : List String),
      composeCandidate fs = some (some doc) →
      composeServices doc = some svcs →
      svcs.Nodup →
      (detectDockerCommands fs cfg).commands =
        cfg.commands ++ dockerGenericCommands ++ svcs.map (fun serviceName =>
          { name := "Docker: Start " ++ serviceName,
            command := "docker-compose up " ++ serviceName,
            description := "Start the " ++ serviceName ++ " service" })
      ∧ (detectDockerCommands fs cfg).commands.length =
          cfg.commands.length + (3 + svcs.length))
    ∧ (composeCandidate fs = none → detectDockerCommands fs cfg = cfg) := by
  constructor
  · intro doc svcs h1 h2 _
    constructor
    · simp [detectDockerCommands, h1, h2]
    · simp [detectDockerCommands, h1, h2, dockerGenericCommands]
      omega
  · intro h
    simp [detectDockerCommands, h]

/-- Witness for C6: a compose file with services a, b, c yields
exactly six entries, and a directory without a compose file yields
none. -/
theorem detectDockerCommands_entry_count_witness :
    (detectDockerCommands fsComposeABC emptyConfig).commands.length = 6
    ∧ detectDockerCommands fsEmpty emptyConfig = emptyConfig := by
  constructor
  · have h := (detectDockerCommands_entry_count fsComposeABC emptyConfig).1
      (YamlVal.map [("services", YamlVal.map [("a", YamlVal.other),
        ("b", YamlVal.other), ("c", YamlVal.other)])])
      ["a", "b", "c"] rfl rfl (by decide)
    rw [h.2]
    rfl
  · exact (detectDockerCommands_entry_count fsEmpty emptyConfig).2 rfl

/-- C1: over a non-empty catalog with the cursor in range, every
keypress transition keeps the cursor in `[0, len(entries)-1]`; in
particular, up-key (up or k) at cursor 0 leaves the cursor at 0, and
down-key (down or j) at the last index leaves it unchanged — no
wrap-around. -/
theorem update_cursor_clamped (m : Model)
    (_hne : 0 < m.config.commands.length)
    (hlo : 0 ≤ m.cursor)
    (hhi : m.cursor ≤ (m.config.commands.length : Int) - 1) :
    (∀ msg : Msg, 0 ≤ (m.update msg).1.cursor ∧
      (m.update msg).1.cursor ≤ (m.config.commands.length : Int) - 1)
    ∧ (m.cursor = 0 →
        (m.update (Msg.key "up")).1.cursor = 0 ∧
        (m.update (Msg.key "k")).1.cursor = 0)
    ∧ (m.cursor = (m.config.commands.length : Int) - 1 →
        (m.update (Msg.key "down")).1.cursor = m.cursor ∧
        (m.update (Msg.key "j")).1.cursor = m.cursor) := by
  have hup : m.update (Msg.key "up") =
      (if m.cursor > 0 then { m with cursor := m.cursor - 1 } else m, none) := rfl
  have hk : m.update (Msg.key "k") =
      (if m.cursor > 0 then { m with cursor := m.cursor - 1 } else m, none) := rfl
  have hdown : m.update (Msg.key "down") =
      (if m.cursor < (m.config.commands.length : Int) - 1 then
        { m with cursor := m.cursor + 1 } else m, none) := rfl
  have hj : m.update (Msg.key "j") =
      (if m.cursor < (m.config.commands.length : Int) - 1 then
        { m with cursor := m.cursor + 1 } else m, none) := rfl
  refine ⟨?_, ?_, ?_⟩
  · intro msg
    cases msg with
    | other => exact ⟨hlo, hhi⟩
    | key s =>
      simp only [Model.update]
      split_ifs with h1 h2 h3 h4 h5 h6 h7 <;>
        first
          | exact ⟨hlo, hhi⟩
          | (constructor <;> simp <;> omega)
          | (rcases hg : m.config.commands.get? m.cursor.toNat with _ | c <;>
              simp [hg] <;> exact ⟨hlo, hhi⟩)
  · intro h0
    rw [hup, hk]
    constructor <;> simp [h0]
  · intro hlast
    rw [hdown, hj]
    constructor <;> simp [hlast]

/-- Witness for C1: over the two-entry catalog with cursor 0, every
cursor bound holds; up-key keeps the cursor at 0. -/
theorem update_cursor_clamped_witness :
    (0 ≤ (modelTwoEntries.update (Msg.key "down")).1.cursor ∧
      (modelTwoEntries.update (Msg.key "down")).1.cursor ≤
        (modelTwoEntries.config.commands.length : Int) - 1)
    ∧ (modelTwoEntries.update (Msg.key "up")).1.cursor = 0
    ∧ (modelTwoEntries.update (Msg.key "k")).1.cursor = 0 := by
  have h := update_cursor_clamped modelTwoEntries (by decide) (by decide) (by decide)
  exact ⟨h.1 (Msg.key "down"), h.2.1 rfl⟩

/-- C9: in a state whose cursor indexes a valid entry, the confirm
key emits the request to run that entry's command string through the
shell (`sh -c <command>` with inherited stdio) and leaves the whole
model unchanged — cursor, catalog (label and every entry) and the
quitting/error flags are exactly as before, so the controller stays
in Browsing. -/
theorem update_enter_execs_selected (m : Model) (c : Command)
    (hlo : 0 ≤ m.cursor)
    (hget : m.config.commands.get? m.cursor.toNat = some c) :
    m.update (Msg.key "enter") = (m, some (TeaCmd.execProcess "sh" "-c" c.command)) := by
  have hlt : m.cursor < (m.config.commands.length : Int) := by
    have hn := List.get?_eq_some.mp hget
    obtain ⟨hn1, _⟩ := hn
    omega
  have he : m.update (Msg.key "enter") =
      (if m.cursor < (m.config.commands.length : Int) then
        match m.config.commands.get? m.cursor.toNat with
        | some c => (m, some (TeaCmd.execProcess "sh" "-c" c.command))
        | none => (m, none)
      else (m, none)) := rfl
  rw [he, if_pos hlt, hget]

/-- Witness for C9: in the one-entry catalog with cursor 0, confirm
emits `sh -c "echo a"` and changes nothing. -/
theorem update_enter_execs_selected_witness :
    modelOneEntry.update (Msg.key "enter") =
      (modelOneEntry, some (TeaCmd.execProcess "sh" "-c" "echo a")) :=
  update_enter_execs_selected modelOneEntry
    { name := "A", command := "echo a", description := "da" } (by decide) rfl

/-- C10: in a state over an empty catalog (cursor 0, its initial and
only reachable value there: no transition below changes it), every
keypress other than the quit keys leaves the state unchanged and
emits no command; in particular the confirm key emits no process-exec
request — the guard `cursor < len(entries)` is false at `0 < 0`, so
the execute branch never indexes into the empty entry sequence. -/
theorem update_empty_catalog_safe (m : Model)
    (hempty : m.config.commands = [])
    (hcur : m.cursor = 0) :
    ∀ s : String, ¬(s = "ctrl+c" ∨ s = "q") → m.update (Msg.key s) = (m, none) := by
  intro s hs
  have hlen : (m.config.commands.length : Int) = 0 := by rw [hempty]; rfl
  simp only [Model.update]
  rw [if_neg hs]
  split_ifs with h2 h3 h4 h5 h6 h7
  all_goals try rfl
  all_goals exfalso; omega

/-- Witness for C10: confirm on the empty catalog is a no-op with no
emitted command. -/
theorem update_empty_catalog_safe_witness :
    modelEmptyCatalog.update (Msg.key "enter") = (modelEmptyCatalog, none) :=
  update_empty_catalog_safe modelEmptyCatalog rfl rfl "enter" (by decide)

/-- C3, evaluated at the failing input: in a directory where catalog
loading fails (no persisted file, nothing detected), the initial
model carries the load error, yet after the user quits the process
exits with status 0 in both program variants — `tea.Program.Run`
never returns the error stored in `Model.err`, so the non-zero branch
of `main` (and the error-string dispatch of the part_000 variant) is
unreachable for load errors.  The normal-quit half of the claim holds:
with a successfully loaded catalog, quitting exits with status 0. -/
theorem main_exit_zero_despite_load_error :
    (initialModel "proj" fsEmpty).2.err =
      some "open .project-commands.json: no such file or directory"
    ∧ mainExitCode "proj" fsEmpty [Msg.key "q"] = 0
    ∧ mainExitCodePrompt "proj" true true fsEmpty [Msg.key "q"] = 0
    ∧ (initialModel "proj" fsGoOnly).2.err = none
    ∧ mainExitCode "proj" fsGoOnly [Msg.key "q"] = 0 :=
  ⟨rfl, rfl, rfl, rfl, rfl⟩
